import Mathlib

/-!
Verification of the GitPay transaction-detection and aggregation core
(`src/utils.ts`, `src/routes.ts`).

JavaScript strings are embedded as `List Char` (the inputs handled by the
code are ASCII hex strings, where a UTF-16 code-unit sequence and a list of
characters coincide).  Each JavaScript string primitive used by the source
(`slice`, `startsWith`, `includes`, `padStart`, `trim`, `parseInt`,
`Number.prototype.toString`) is given an explicit total model below, and the
classifier, the call-data builder and the aggregator are translated from the
TypeScript source function by function.
-/

/-- JS `s.slice(a, b)` for `0 ≤ a ≤ b`: the characters from index `a`
(inclusive) to `b` (exclusive), clamped to the string length. -/
def jsSlice2 (l : List Char) (a b : Nat) : List Char := (l.take b).drop a

/-- JS `s.startsWith(p)`. -/
def jsStartsWith (l p : List Char) : Bool := p.isPrefixOf l

/-- JS `s.includes(sub)`: substring containment. -/
def jsIncludes (l sub : List Char) : Bool := decide (sub <:+: l)

/-- JS `s.padStart(64, '0')`. -/
def jsPadStart64 (l : List Char) : List Char := List.replicate (64 - l.length) '0' ++ l

/-- The white-space characters skipped by JS `parseInt`/`parseFloat` and
removed by `trim` (the common ASCII ones; the exotic Unicode space classes
never occur in this code's data). -/
def jsWhitespace (c : Char) : Bool :=
  c = ' ' || c = '\t' || c = '\n' || c = '\r' || c = '\x0b' || c = '\x0c'

/-- JS `s.trim()`. -/
def jsTrim (l : List Char) : List Char :=
  (((l.dropWhile jsWhitespace).reverse).dropWhile jsWhitespace).reverse

/-- Hexadecimal digit test (`0-9a-fA-F`). -/
def isHexDig (c : Char) : Bool :=
  ('0' ≤ c && c ≤ '9') || ('a' ≤ c && c ≤ 'f') || ('A' ≤ c && c ≤ 'F')

/-- Value of a hexadecimal digit (0 on a non-digit; never reached on one). -/
def hexDigVal (c : Char) : Nat :=
  if '0' ≤ c && c ≤ '9' then c.toNat - 48
  else if 'a' ≤ c && c ≤ 'f' then c.toNat - 87
  else if 'A' ≤ c && c ≤ 'F' then c.toNat - 55
  else 0

/-- Big-endian value of a hexadecimal digit string. -/
def hexVal (l : List Char) : Nat := l.foldl (fun a c => 16 * a + hexDigVal c) 0

/-- Value of a decimal digit string. -/
def decVal (l : List Char) : Nat := l.foldl (fun a c => 10 * a + (c.toNat - 48)) 0

/-- The exact mathematical integer read by JS `parseInt(s, 16)`:
skip white space, optional sign, optional `0x`/`0X`, then the longest run of
hexadecimal digits; `none` is `NaN` (no digits). -/
def jsParseIntHexExact (s : List Char) : Option Int :=
  let s1 := s.dropWhile jsWhitespace
  let sign : Int := if s1.head? = some '-' then -1 else 1
  let s2 := if s1.head? = some '-' ∨ s1.head? = some '+' then s1.tail else s1
  let s3 := if s2.take 2 = ['0', 'x'] ∨ s2.take 2 = ['0', 'X'] then s2.drop 2 else s2
  let digits := s3.takeWhile isHexDig
  if digits = [] then none else some (sign * (hexVal digits : Int))

/-- The exact mathematical integer read by JS `parseInt(s)` with no radix
argument: skip white space, optional sign, hexadecimal after a `0x`/`0X`,
decimal otherwise; `none` is `NaN`. -/
def jsParseIntDecExact (s : List Char) : Option Int :=
  let s1 := s.dropWhile jsWhitespace
  let sign : Int := if s1.head? = some '-' then -1 else 1
  let s2 := if s1.head? = some '-' ∨ s1.head? = some '+' then s1.tail else s1
  if s2.take 2 = ['0', 'x'] ∨ s2.take 2 = ['0', 'X'] then
    let digits := (s2.drop 2).takeWhile isHexDig
    if digits = [] then none else some (sign * (hexVal digits : Int))
  else
    let digits := s2.takeWhile (fun c => '0' ≤ c && c ≤ '9')
    if digits = [] then none else some (sign * (decVal digits : Int))

/-- Fuel-driven helper for `bitLen` (fuel-based so that the kernel can
evaluate it inside `decide`). -/
def bitLenAux : Nat → Nat → Nat
  | 0, _ => 0
  | fuel + 1, n => if n = 0 then 0 else bitLenAux fuel (n / 2) + 1

/-- Number of binary digits of a natural number (`0` for `0`). -/
def bitLen (n : Nat) : Nat := bitLenAux n n

/-- Rounding of a natural number to the nearest IEEE-754 binary64 value
(round half to even), the rounding JS applies to the exact integer read by
`parseInt`.  Exact below `2 ^ 53`.  Overflow to infinity (at `2 ^ 1024`) is
not modeled; every number arising in this code is below `16 ^ 64 < 2 ^ 1024`. -/
def float64Round (n : Nat) : Nat :=
  if n < 2 ^ 53 then n
  else
    let e := bitLen n - 53
    let q := n / 2 ^ e
    let r := n % 2 ^ e
    if 2 * r < 2 ^ e then q * 2 ^ e
    else if 2 * r > 2 ^ e then (q + 1) * 2 ^ e
    else if q % 2 = 0 then q * 2 ^ e else (q + 1) * 2 ^ e

/-- binary64 rounding extended to integers. -/
def float64RoundInt (i : Int) : Int :=
  if i < 0 then -(float64Round i.natAbs : Int) else (float64Round i.natAbs : Int)

/-- JS `parseInt(s, 16)`: the exact integer, rounded to a binary64 value. -/
def jsParseIntHex (s : List Char) : Option Int :=
  (jsParseIntHexExact s).map float64RoundInt

/-- Fuel-driven helper for `natToDec`. -/
def natToDecAux : Nat → Nat → List Char
  | 0, _ => []
  | fuel + 1, n =>
    if n < 10 then [Char.ofNat (48 + n)]
    else natToDecAux fuel (n / 10) ++ [Char.ofNat (48 + n % 10)]

/-- Decimal digit string of a natural number. -/
def natToDec (n : Nat) : List Char := natToDecAux (n + 1) n

/-- Drop trailing `'0'` characters. -/
def stripTrailingZeros (l : List Char) : List Char :=
  (l.reverse.dropWhile (fun c => c = '0')).reverse

/-- JS exponential (`d.ddd e+NN`) rendering of an integral number value of at
least `10 ^ 21`.  JS prints the shortest digit string that rounds back to the
same binary64 value; this model prints the full digits of the exact integer
instead.  The two agree whenever the digits carry no rounding tail, and no
theorem below evaluates this branch: every amount appearing in a theorem is
below `10 ^ 21`, where JS uses plain decimal notation. -/
def jsExpForm (n : Nat) : List Char :=
  let ds := natToDec n
  let ex := ds.length - 1
  match stripTrailingZeros ds with
  | [] => ['0']
  | [d] => d :: ('e' :: '+' :: natToDec ex)
  | d :: rest => d :: '.' :: (rest ++ 'e' :: '+' :: natToDec ex)

/-- JS `Number.prototype.toString()` (radix 10) on an integral number value:
plain decimal below `10 ^ 21`, exponential notation above. -/
def jsNatToString (n : Nat) : List Char :=
  if n < 10 ^ 21 then natToDec n else jsExpForm n

/-- JS `Number.prototype.toString()` on an integral or `NaN` value. -/
def jsNumToString (v : Option Int) : List Char :=
  match v with
  | none => "NaN".toList
  | some i => if i < 0 then '-' :: jsNatToString i.natAbs else jsNatToString i.natAbs

/-- JS `Number.prototype.toString(16)` on an integral or `NaN` value
(full lowercase hexadecimal digits). -/
def jsNumToHexString (v : Option Int) : List Char :=
  match v with
  | none => "NaN".toList
  | some i => if i < 0 then '-' :: Nat.toDigits 16 i.natAbs else Nat.toDigits 16 i.natAbs

/-- `GITPAY_IDENTIFIER` from `src/utils.ts`: hex of ASCII "GITPAY" zero-padded
to 32 bytes, with the `0x` marker. -/
def GITPAY_IDENTIFIER : List Char :=
  "0x4749545041590000000000000000000000000000000000000000000000000000".toList

/-- The ERC-20 `transfer(address,uint256)` selector literal used by the
classifier and the builder. -/
def transferSignature : List Char := "0xa9059cbb".toList

/-- Hex of ASCII "GITPAY", the marker the memo decoder looks for. -/
def gitpayAsciiHex : List Char := "474954504159".toList

/-- The 64-zero literal the memo decoder compares against. -/
def zeros64 : List Char := List.replicate 64 '0'

/-- `containsGitPayIdentifier` from `src/utils.ts`: the identifier (without
its `0x` marker) occurs anywhere in the data. -/
def containsGitPayIdentifier (data : List Char) : Bool :=
  jsIncludes data (GITPAY_IDENTIFIER.drop 2)

/-- Node `Buffer.from(hex, 'hex')`: consume pairs of hexadecimal digits,
stopping at the first invalid pair or dangling character. -/
def hexPairsToBytes : List Char → List Nat
  | c1 :: c2 :: rest =>
    if isHexDig c1 && isHexDig c2 then
      (16 * hexDigVal c1 + hexDigVal c2) :: hexPairsToBytes rest
    else []
  | _ => []

/-- U+FFFD, the replacement character emitted on malformed UTF-8. -/
def replacementChar : Char := Char.ofNat 0xFFFD

/-- UTF-8 decoding with replacement on malformed sequences (the semantics of
Node `buffer.toString('utf8')`; the granularity of replacement characters on
malformed multi-byte garbage is approximated, and no theorem depends on it —
the memo bytes reached by the theorems below are plain ASCII or NUL).  The
fuel argument is the number of remaining bytes, which bounds the recursion. -/
def utf8DecodeAux : Nat → List Nat → List Char
  | 0, _ => []
  | _ + 1, [] => []
  | fuel + 1, b :: rest =>
    if b < 0x80 then Char.ofNat b :: utf8DecodeAux fuel rest
    else if 0xC2 ≤ b && b ≤ 0xDF then
      match rest with
      | b2 :: rest2 =>
        if 0x80 ≤ b2 && b2 ≤ 0xBF then
          Char.ofNat ((b - 0xC0) * 64 + (b2 - 0x80)) :: utf8DecodeAux fuel rest2
        else replacementChar :: utf8DecodeAux fuel rest
      | [] => [replacementChar]
    else if 0xE0 ≤ b && b ≤ 0xEF then
      match rest with
      | b2 :: b3 :: rest3 =>
        if (0x80 ≤ b2 && b2 ≤ 0xBF) && (0x80 ≤ b3 && b3 ≤ 0xBF) then
          let cp := (b - 0xE0) * 4096 + (b2 - 0x80) * 64 + (b3 - 0x80)
          if 0x800 ≤ cp && !(0xD800 ≤ cp && cp ≤ 0xDFFF) then
            Char.ofNat cp :: utf8DecodeAux fuel rest3
          else replacementChar :: utf8DecodeAux fuel rest
        else replacementChar :: utf8DecodeAux fuel rest
      | _ => [replacementChar]
    else if 0xF0 ≤ b && b ≤ 0xF4 then
      match rest with
      | b2 :: b3 :: b4 :: rest4 =>
        if (0x80 ≤ b2 && b2 ≤ 0xBF) && ((0x80 ≤ b3 && b3 ≤ 0xBF) && (0x80 ≤ b4 && b4 ≤ 0xBF)) then
          let cp := (b - 0xF0) * 262144 + (b2 - 0x80) * 4096 + (b3 - 0x80) * 64 + (b4 - 0x80)
          if 0x10000 ≤ cp && cp ≤ 0x10FFFF then
            Char.ofNat cp :: utf8DecodeAux fuel rest4
          else replacementChar :: utf8DecodeAux fuel rest
        else replacementChar :: utf8DecodeAux fuel rest
      | _ => [replacementChar]
    else replacementChar :: utf8DecodeAux fuel rest

/-- UTF-8 decoding of a byte list. -/
def utf8Decode (bs : List Nat) : List Char := utf8DecodeAux bs.length bs

/-- The record returned by `parseGitPayTransactionData`
(`{ isGitPay, recipient?, amount?, memo? }`). -/
structure ParseResult where
  isGitPay : Bool
  recipient : Option (List Char) := none
  amount : Option (List Char) := none
  memo : Option (List Char) := none
deriving Repr, DecidableEq

/-- `parseGitPayTransactionData` from `src/utils.ts` (lines 98-148),
translated clause by clause:
empty data is falsy and classifies `isGitPay: false`; data without the
identifier classifies `isGitPay: false`; on data with the identifier, the
recipient and amount are decoded when the data starts with the
`transfer(address,uint256)` selector and spans at least 138 characters, and a
memo is decoded from the identifier block at offset 138 when present. -/
def parseGitPayTransactionData (data : List Char) : ParseResult :=
  if data = [] then { isGitPay := false }
  else if !(containsGitPayIdentifier data) then { isGitPay := false }
  else
    let recipAmt : Option (List Char) × Option (List Char) :=
      if jsStartsWith data transferSignature && 138 ≤ data.length then
        let recipientHex := jsSlice2 data 10 74
        let amountHex := jsSlice2 data 74 138
        (some ('0' :: 'x' :: recipientHex.drop 24),
         some (jsNumToString (jsParseIntHex amountHex)))
      else (none, none)
    let memo : Option (List Char) :=
      if 202 ≤ data.length then
        let identifierHex := jsSlice2 data 138 202
        if jsStartsWith identifierHex gitpayAsciiHex then
          let memoHex := identifierHex.drop 12
          if memoHex ≠ [] ∧ memoHex ≠ zeros64 then
            let m := jsTrim ((utf8Decode (hexPairsToBytes memoHex)).filter
              (fun c => c != Char.ofNat 0))
            if m = [] then none else some m
          else none
        else none
      else none
    { isGitPay := true, recipient := recipAmt.1, amount := recipAmt.2, memo := memo }

/-- `createGitPayTransactionData` from the donation page in `src/utils.ts`
(lines 598-610): ERC-20 transfer selector, the recipient without its `0x`
marker zero-padded to 64 hex digits, the amount re-read with `parseInt` and
rendered in zero-padded hexadecimal, then the GITPAY identifier block.  The
`memo` parameter is accepted but never used, exactly as in the source. -/
def createGitPayTransactionData (recipientAddress amountInWei : List Char)
    (memo : Option (List Char)) : List Char :=
  let paddedRecipient := jsPadStart64 (recipientAddress.drop 2)
  let paddedAmount :=
    jsPadStart64 (jsNumToHexString ((jsParseIntDecExact amountInWei).map float64RoundInt))
  let transferData := transferSignature ++ paddedRecipient ++ paddedAmount
  let gitpayIdentifier := GITPAY_IDENTIFIER.drop 2
  transferData ++ gitpayIdentifier

/-- `rawContract` fields of an Alchemy asset-transfer record, flattened into
the event record below (`address` and `decimals` may each be absent). -/
structure TransferEvent where
  hash : List Char
  /-- The event's `from` field (`from` is reserved in Lean). -/
  fromAddress : List Char
  /-- The event's `to` field (`to` is reserved in Lean). -/
  toAddress : List Char
  /-- `transfer.value`, the numeric token amount reported by the event.
  Modeled as an exact natural number; the binary64 rounding JS applies when
  scaling it by `10 ^ decimals` is not modeled (no stated property depends on
  the numeric value of the fallback amount, only on its shape).  `none` and
  `0` are both falsy in the source's `transfer.value ?` test. -/
  value : Option Nat
  blockNum : List Char
  /-- `new Date(transfer.metadata?.blockTimestamp).getTime()`: the calendar
  parsing performed by the external `Date` library is abstracted, and the
  event carries the resulting millisecond count directly. -/
  blockTimestamp : Int
  contractAddress : Option (List Char)
  decimals : Option Nat
deriving Repr, DecidableEq

/-- The transaction object returned by `client.getTransaction`; only its
`input` field is consumed (`none` models an absent/empty falsy field is kept
separate: `none` is absent, and the empty list is the falsy empty string). -/
structure TxRecord where
  input : Option (List Char)
deriving Repr, DecidableEq

/-- One JSON-RPC response of `alchemy_getAssetTransfers`: an optional `error`
member and an optional `result.transfers` array. -/
structure RpcResponse where
  error : Option (List Char)
  transfers : Option (List TransferEvent)
deriving Repr, DecidableEq

/-- `data.result?.transfers || []`. -/
def transfersOf (r : RpcResponse) : List TransferEvent := r.transfers.getD []

/-- The `GitPayTransaction` interface from `src/utils.ts` (lines 151-162). -/
structure GitPayTransaction where
  hash : List Char
  /-- The interface's `from` field (`from` is reserved in Lean). -/
  fromAddress : List Char
  /-- The interface's `to` field (`to` is reserved in Lean). -/
  toAddress : List Char
  value : List Char
  blockNumber : List Char
  timestamp : Int
  recipient : List Char
  amount : List Char
  memo : Option (List Char)
  ens : Option (List Char) := none
deriving Repr, DecidableEq

/-- `PYUSD_CONTRACT`.  The `config.ts` module itself is not part of the
snapshot; the constant is defined identically in `src/index.ts`,
`api/dashboard.ts` and `api/debug.ts`, and its exact value is immaterial to
every property below (it only feeds an equality filter). -/
def PYUSD_CONTRACT : List Char := "0xCaC524BcA292aaade2DF8A05cC58F0a65B1B3bB9".toList

/-- JS `s.toLowerCase()` (ASCII). -/
def jsToLower (l : List Char) : List Char := l.map Char.toLower

/-- JS `a || b` on an optional string: the fallback is taken when the string
is absent or empty (falsy). -/
def jsOrStr (o : Option (List Char)) (d : List Char) : List Char :=
  match o with
  | some s => if s = [] then d else s
  | none => d

/-- `transfer.rawContract?.decimals || 6` (`0` is falsy). -/
def jsDecimalsOr6 : Option Nat → Nat
  | none => 6
  | some 0 => 6
  | some k => k

/-- `transfer.value ? (parseFloat(transfer.value) * Math.pow(10, decimals)).toString() : '0'`,
the fallback amount derived from the raw event (exact arithmetic stands in
for the binary64 product, see `TransferEvent.value`). -/
def transferValueStr (t : TransferEvent) : List Char :=
  match t.value with
  | none => ['0']
  | some 0 => ['0']
  | some v => natToDec (v * 10 ^ jsDecimalsOr6 t.decimals)

/-- Deduplication step of `fetchTransactionsForAddress` (`src/utils.ts`
lines 232-235): the source keeps a transfer exactly when its index equals
the first index carrying the same `hash`, i.e. it keeps the first occurrence
of every hash; this recursion with an accumulated set of seen hashes
implements that first-occurrence filter. -/
def dedupByHash : List (List Char) → List TransferEvent → List TransferEvent
  | _, [] => []
  | seen, t :: rest =>
    if t.hash ∈ seen then dedupByHash seen rest
    else t :: dedupByHash (t.hash :: seen) rest

/-- Construction of the output record pushed by the processing loop
(`src/utils.ts` lines 280-290). -/
def mkGitPayTransaction (t : TransferEvent) (parsed : ParseResult) : GitPayTransaction :=
  let amount := transferValueStr t
  { hash := t.hash
    fromAddress := t.fromAddress
    toAddress := t.toAddress
    value := amount
    blockNumber := t.blockNum
    timestamp := t.blockTimestamp
    recipient := jsOrStr parsed.recipient t.toAddress
    amount := jsOrStr parsed.amount amount
    memo := parsed.memo }

/-- One iteration of the processing loop of `fetchTransactionsForAddress`
(`src/utils.ts` lines 249-301): fetch the owning transaction
(`getTransaction`; its failure is caught by the loop's `try`/`catch` and the
event skipped, i.e. `none`), skip the event when the transaction's `input` is
absent or the empty (falsy) string, classify the input, and produce the
reconstructed record exactly when `isGitPay` holds. -/
def processOneTransfer (getTransaction : List Char → Except Unit TxRecord)
    (t : TransferEvent) : Option GitPayTransaction :=
  match getTransaction t.hash with
  | .error _ => none
  | .ok tx =>
    match tx.input with
    | none => none
    | some input =>
      if input = [] then none
      else
        let parsed := parseGitPayTransactionData input
        if parsed.isGitPay then some (mkGitPayTransaction t parsed) else none

/-- The per-transfer processing loop of `fetchTransactionsForAddress`:
each event contributes at most one output record (`processOneTransfer`), and
skipped events (lookup failure, falsy input, not GitPay) contribute none. -/
def processTransfers (getTransaction : List Char → Except Unit TxRecord)
    (l : List TransferEvent) : List GitPayTransaction :=
  l.filterMap (processOneTransfer getTransaction)

/-- The sort step (`src/utils.ts` line 306):
`sort((a, b) => b.timestamp - a.timestamp)`, a stable sort placing larger
timestamps first. -/
def sortByTimestampDesc (l : List GitPayTransaction) : List GitPayTransaction :=
  l.mergeSort (fun a b => b.timestamp ≤ a.timestamp)

/-- `fetchTransactionsForAddress` from `src/utils.ts` (lines 165-315),
with its two already-awaited JSON-RPC responses and the `getTransaction`
client passed as data: fail the whole call when either directional query
carries an `error` member; otherwise merge, deduplicate by hash, filter to
the PYUSD contract, process at most `limit` events, sort descending by
timestamp and return the first 10.  The network fetch itself and the JSON
parsing belong to the excluded transport layer. -/
def fetchTransactionsForAddress (limit : Nat) (toData fromData : RpcResponse)
    (getTransaction : List Char → Except Unit TxRecord) :
    Except (List Char) (List GitPayTransaction) :=
  match toData.error with
  | some msg => .error ("Alchemy API error (to): ".toList ++ msg)
  | none =>
    match fromData.error with
    | some msg => .error ("Alchemy API error (from): ".toList ++ msg)
    | none =>
      let allTransfers := transfersOf toData ++ transfersOf fromData
      let uniqueTransfers := dedupByHash [] allTransfers
      let pyusdTransfers := uniqueTransfers.filter fun t =>
        match t.contractAddress with
        | some a => jsToLower a = jsToLower PYUSD_CONTRACT
        | none => false
      let gitPayTransactions := processTransfers getTransaction (pyusdTransfers.take limit)
      .ok ((sortByTimestampDesc gitPayTransactions).take 10)

/-- JS `parseFloat(s)` on the decimal forms produced by this pipeline:
skip white space, optional sign, digits with an optional fraction and an
optional exponent; `none` is `NaN` (the `Infinity` literal, which no amount
string of this pipeline can be, is not modeled). -/
def jsParseFloat (s : List Char) : Option ℚ :=
  let s1 := s.dropWhile jsWhitespace
  let sign : ℚ := if s1.head? = some '-' then -1 else 1
  let s2 := if s1.head? = some '-' ∨ s1.head? = some '+' then s1.tail else s1
  let intDigits := s2.takeWhile (fun c => '0' ≤ c && c ≤ '9')
  let s3 := s2.drop intDigits.length
  let fracDigits :=
    if s3.head? = some '.' then s3.tail.takeWhile (fun c => '0' ≤ c && c ≤ '9') else []
  let s4 := if s3.head? = some '.' then s3.tail.drop fracDigits.length else s3
  if intDigits = [] ∧ fracDigits = [] then none
  else
    let mantissa : ℚ :=
      (decVal intDigits : ℚ) + (decVal fracDigits : ℚ) / (10 : ℚ) ^ fracDigits.length
    let expPart : Option ℚ :=
      if s4.head? = some 'e' ∨ s4.head? = some 'E' then
        let s5 := s4.tail
        let esign : Int := if s5.head? = some '-' then -1 else 1
        let s6 := if s5.head? = some '-' ∨ s5.head? = some '+' then s5.tail else s5
        let eDigits := s6.takeWhile (fun c => '0' ≤ c && c ≤ '9')
        if eDigits = [] then some 1 else some ((10 : ℚ) ^ (esign * (decVal eDigits : Int)))
      else some 1
    expPart.map fun e => sign * mantissa * e

/-- The aggregate statistics computed by `gitPayDashboard`
(`src/routes.ts` lines 750-763). -/
structure DashboardStats where
  totalReceived : Option ℚ
  totalDonated : Option ℚ
  receivedCount : Nat
  donatedCount : Nat
deriving Repr, DecidableEq

/-- `transactions.filter(tx => tx.recipient.toLowerCase() === resolvedAddress.toLowerCase())`. -/
def receivedTransactions (address : List Char) (txs : List GitPayTransaction) :
    List GitPayTransaction :=
  txs.filter fun tx => jsToLower tx.recipient = jsToLower address

/-- `transactions.filter(tx => tx.from.toLowerCase() === resolvedAddress.toLowerCase())`. -/
def donatedTransactions (address : List Char) (txs : List GitPayTransaction) :
    List GitPayTransaction :=
  txs.filter fun tx => jsToLower tx.fromAddress = jsToLower address

/-- `reduce((sum, tx) => sum + parseFloat(tx.amount) / 1000000, 0)`, with
`NaN` (`none`) propagating through the sum as it does through JS addition;
exact rational arithmetic stands in for binary64 addition and division. -/
def sumAmounts (txs : List GitPayTransaction) : Option ℚ :=
  txs.foldl
    (fun acc tx => do
      let a ← acc
      let v ← jsParseFloat tx.amount
      pure (a + v / 1000000))
    (some 0)

/-- The `stats` object of `gitPayDashboard` (`src/routes.ts` lines 758-763). -/
def computeDashboardStats (address : List Char) (txs : List GitPayTransaction) :
    DashboardStats :=
  { totalReceived := sumAmounts (receivedTransactions address txs)
    totalDonated := sumAmounts (donatedTransactions address txs)
    receivedCount := (receivedTransactions address txs).length
    donatedCount := (donatedTransactions address txs).length }

/-! ### Concrete inputs used by counterexamples and witnesses -/

/-- Call-data with the transfer selector, a padded recipient, the amount
`2 ^ 53 + 1` (hex `20000000000001`) and the GITPAY identifier block. -/
def c1CounterData : List Char :=
  ("0xa9059cbb" ++ "000000000000000000000000" ++ "1111111111111111111111111111111111111111"
    ++ "00000000000000000000000000000000000000000000000000" ++ "20000000000001"
    ++ "4749545041590000000000000000000000000000000000000000000000000000").toList

/-- Call-data with the transfer selector, a padded recipient, the amount 10
and the GITPAY identifier block (the worked example of the specification). -/
def c1WitnessData : List Char :=
  ("0xa9059cbb" ++ "000000000000000000000000" ++ "0000000000000000000000000000000000000abc"
    ++ "000000000000000000000000000000000000000000000000000000000000000a"
    ++ "4749545041590000000000000000000000000000000000000000000000000000").toList

/-- A recipient address for the round-trip check. -/
def c3Recipient : List Char := "0xAbC1111111111111111111111111111111111111".toList

/-- Builder output for recipient `c3Recipient`, amount `1000000`, memo "hi". -/
def c3Data : List Char :=
  createGitPayTransactionData c3Recipient "1000000".toList (some "hi".toList)

/-- The identifier block alone behind a `0x` marker: 66 characters, far below
the 138 of a well-formed transfer call. -/
def c4TruncatedData : List Char :=
  ("0x" ++ "4749545041590000000000000000000000000000000000000000000000000000").toList


/-- A transfer event used by the deduplication witness: it appears in both
the to-address and the from-address query results with the same hash. -/
def c6Event1 : TransferEvent :=
  { hash := "0xdup".toList, fromAddress := "0xaa".toList, toAddress := "0xaa".toList,
    value := some 3, blockNum := "0x10".toList, blockTimestamp := 5000,
    contractAddress := some PYUSD_CONTRACT, decimals := some 6 }

/-- The same transfer event as returned by the from-address query. -/
def c6Event2 : TransferEvent :=
  { hash := "0xdup".toList, fromAddress := "0xaa".toList, toAddress := "0xaa".toList,
    value := some 3, blockNum := "0x10".toList, blockTimestamp := 5000,
    contractAddress := some PYUSD_CONTRACT, decimals := some 6 }

/-- A transaction lookup answering every hash with tagged transfer data. -/
def c6Lookup : List Char → Except Unit TxRecord :=
  fun _ => Except.ok { input := some c1WitnessData }

/-- The single record the aggregation of `c6Event1`/`c6Event2` produces. -/
def c6Expected : GitPayTransaction :=
  mkGitPayTransaction c6Event1 (parseGitPayTransactionData c1WitnessData)

/-- A lone transfer event for the ordering witness. -/
def c7Event : TransferEvent :=
  { hash := "0xsingle".toList, fromAddress := "0xbb".toList, toAddress := "0xcc".toList,
    value := some 4, blockNum := "0x11".toList, blockTimestamp := 777,
    contractAddress := some PYUSD_CONTRACT, decimals := some 6 }

/-- The record the aggregation of `c7Event` produces. -/
def c7Expected : GitPayTransaction :=
  mkGitPayTransaction c7Event (parseGitPayTransactionData c1WitnessData)

/-- A transfer event whose transaction carries tag-only call-data, so the
classifier decodes no transfer arguments and the aggregation must fall back
to the event's own fields. -/
def c10Event : TransferEvent :=
  { hash := "0xtagonly".toList, fromAddress := "0xdd".toList, toAddress := "0xFeedFace".toList,
    value := some 2, blockNum := "0x12".toList, blockTimestamp := 888,
    contractAddress := some PYUSD_CONTRACT, decimals := some 6 }

/-- The record the aggregation of `c10Event` produces: its recipient is the
event's `to` address because the tag-only call-data decodes no recipient. -/
def c10Expected : GitPayTransaction :=
  mkGitPayTransaction c10Event (parseGitPayTransactionData c4TruncatedData)

/-! ### Theorems -/

/-- Claim C2 (confirmed): call-data that does not contain the 32-byte GITPAY
identifier anywhere is classified `isGitPay: false` with no recipient, amount
or memo. -/
theorem C2_untagged_has_no_fields (s : List Char)
    (h : containsGitPayIdentifier s = false) :
    parseGitPayTransactionData s =
      { isGitPay := false, recipient := none, amount := none, memo := none } := by
  unfold parseGitPayTransactionData
  by_cases hs : s = []
  · simp [hs]
  · simp [hs, h]

/-- Witness for C2 at the concrete input `"0xdeadbeef"`. -/
theorem C2_untagged_has_no_fields_witness :
    containsGitPayIdentifier "0xdeadbeef".toList = false ∧
    parseGitPayTransactionData "0xdeadbeef".toList =
      { isGitPay := false, recipient := none, amount := none, memo := none } :=
  ⟨by decide, C2_untagged_has_no_fields _ (by decide)⟩

set_option maxRecDepth 8000 in
/-- Claim C4, counterexample: the 66-character string `0x` + identifier block
is truncated call-data (shorter than the 138 characters of a well-formed
transfer), yet the classifier returns `isGitPay: true`, not `false` as the
claim states for every malformed or truncated input. -/
theorem C4_truncated_tagged_counterexample :
    c4TruncatedData.length < 138 ∧
    (parseGitPayTransactionData c4TruncatedData).isGitPay = true := by decide

/-- Claim C4 (corrected): the classifier is total — every input string, also
empty, truncated, odd-length or non-hex, yields a classification without an
error — and `isGitPay` equals exactly the containment of the GITPAY
identifier, so malformed input without the identifier is classified `false`,
while input containing the identifier is classified `true` even when
truncated or otherwise malformed. -/
theorem C4_total_and_isGitPay_iff_contains (s : List Char) :
    (parseGitPayTransactionData s).isGitPay = containsGitPayIdentifier s := by
  unfold parseGitPayTransactionData
  by_cases hs : s = []
  · subst hs; decide
  · by_cases hc : containsGitPayIdentifier s = true
    · simp [hs, hc]
    · simp [hs, Bool.not_eq_true _ ▸ hc, eq_false_of_ne_true hc]

set_option maxRecDepth 8000 in
/-- Claim C3 (code bug): building call-data for a recipient, an amount and
the memo "hi" with `createGitPayTransactionData` and classifying the result
recovers the recipient and the amount but NOT the memo — the builder accepts
a `memo` parameter and never writes it into the data, so the classifier
finds only the zero padding of the identifier block and returns no memo. -/
theorem C3_roundtrip_loses_memo :
    (parseGitPayTransactionData c3Data).isGitPay = true ∧
    (parseGitPayTransactionData c3Data).recipient = some c3Recipient ∧
    (parseGitPayTransactionData c3Data).amount = some "1000000".toList ∧
    (parseGitPayTransactionData c3Data).memo = none ∧
    (parseGitPayTransactionData c3Data).memo ≠ some (jsTrim "hi".toList) := by decide

/-- A hexadecimal digit is not white space. -/
theorem isHexDig_not_whitespace {c : Char} (h : isHexDig c = true) : jsWhitespace c = false := by
  by_contra hw
  rw [Bool.not_eq_false, jsWhitespace] at hw
  simp only [Bool.or_eq_true, decide_eq_true_eq] at hw
  rcases hw with ((((h1 | h1) | h1) | h1) | h1) | h1 <;> subst h1 <;> revert h <;> decide

/-- `takeWhile` keeps a list all of whose elements satisfy the test. -/
theorem takeWhile_all {p : Char → Bool} :
    ∀ l : List Char, (∀ c ∈ l, p c = true) → l.takeWhile p = l := by
  intro l h
  induction l with
  | nil => rfl
  | cons a as ih =>
    rw [List.takeWhile_cons, h a (List.mem_cons_self a as)]
    rw [ih fun c hc => h c (List.mem_cons_of_mem _ hc)]
    simp

/-- On a non-empty string of plain hexadecimal digits, JS `parseInt(s, 16)`
reads exactly the big-endian value of the digits. -/
theorem jsParseIntHexExact_of_hex : ∀ l : List Char, l ≠ [] →
    (∀ c ∈ l, isHexDig c = true) → jsParseIntHexExact l = some ((hexVal l : Int))
  | c :: cs, _, hhex => by
    have hc := hhex c (List.mem_cons_self c cs)
    have hw : jsWhitespace c = false := isHexDig_not_whitespace hc
    have hms : c ≠ '-' := fun h => by subst h; revert hc; decide
    have hps : c ≠ '+' := fun h => by subst h; revert hc; decide
    have hdw : (c :: cs).dropWhile jsWhitespace = c :: cs := by
      rw [List.dropWhile_cons, hw]
      simp
    have htw : (c :: cs).takeWhile isHexDig = c :: cs := takeWhile_all _ hhex
    have htake : ((c :: cs).take 2 = ['0', 'x'] ∨ (c :: cs).take 2 = ['0', 'X']) = False := by
      cases cs with
      | nil => simp
      | cons c2 cs' =>
        have hc2 := hhex c2 (List.mem_cons_of_mem _ (List.mem_cons_self c2 cs'))
        have hx : c2 ≠ 'x' := fun h => by subst h; revert hc2; decide
        have hX : c2 ≠ 'X' := fun h => by subst h; revert hc2; decide
        simp [hx, hX]
    simp only [jsParseIntHexExact, hdw, List.head?_cons, Option.some.injEq, hms, hps, or_self,
      if_false, htake, htw]
    simp [htw, List.cons_ne_nil]

/-- binary64 rounding is the identity below `2 ^ 53`. -/
theorem float64Round_of_lt (n : Nat) (h : n < 2 ^ 53) : float64Round n = n := by
  unfold float64Round; rw [if_pos h]

/-- binary64 rounding is the identity on natural numbers below `2 ^ 53`. -/
theorem float64RoundInt_coe (n : Nat) (h : n < 2 ^ 53) :
    float64RoundInt (n : Int) = (n : Int) := by
  unfold float64RoundInt
  rw [if_neg (by simp), Int.natAbs_ofNat, float64Round_of_lt n h]

/-- `Number.prototype.toString` prints the plain decimal digits of an exactly
represented natural number below `10 ^ 21`. -/
theorem jsNumToString_coe (n : Nat) (h : n < 10 ^ 21) :
    jsNumToString (some (n : Int)) = natToDec n := by
  simp only [jsNumToString, jsNatToString]
  rw [if_neg (by simp), Int.natAbs_ofNat, if_pos h]

set_option maxRecDepth 8000 in
/-- Claim C1, counterexample: well-formed tagged transfer call-data whose
amount argument encodes `2 ^ 53 + 1` satisfies every hypothesis of the claim,
yet `decodedAmount` is the decimal string of `2 ^ 53` — `parseInt` rounds the
argument to a binary64 value, so the promised arbitrary-precision exactness
for every 256-bit amount fails. -/
theorem C1_large_amount_counterexample :
    jsStartsWith c1CounterData transferSignature = true ∧
    138 ≤ c1CounterData.length ∧
    containsGitPayIdentifier c1CounterData = true ∧
    hexVal (jsSlice2 c1CounterData 74 138) = 2 ^ 53 + 1 ∧
    (parseGitPayTransactionData c1CounterData).isGitPay = true ∧
    (parseGitPayTransactionData c1CounterData).amount ≠ some (natToDec (2 ^ 53 + 1)) ∧
    (parseGitPayTransactionData c1CounterData).amount = some (natToDec (2 ^ 53)) := by decide

/-- Claim C1 (corrected): for call-data beginning with the
`transfer(address,uint256)` selector, spanning at least 138 characters,
containing the GITPAY identifier, and whose amount argument is a hexadecimal
digit string encoding a value below `2 ^ 53`, the classifier returns
`isGitPay: true`, `decodedRecipient` equal to `0x` followed by the last 40
hex digits of the first argument, and `decodedAmount` equal to the exact
decimal string of the big-endian amount value.  (The claim's range of every
256-bit value is cut down to values below `2 ^ 53`, which is what the
counterexample forces.) -/
theorem C1_tagged_transfer_decodes (s : List Char) (v : Nat)
    (hsel : jsStartsWith s transferSignature = true)
    (hlen : 138 ≤ s.length)
    (htag : containsGitPayIdentifier s = true)
    (hhex : ∀ c ∈ jsSlice2 s 74 138, isHexDig c = true)
    (hval : hexVal (jsSlice2 s 74 138) = v)
    (hv : v < 2 ^ 53) :
    (parseGitPayTransactionData s).isGitPay = true ∧
    (parseGitPayTransactionData s).recipient = some ('0' :: 'x' :: jsSlice2 s 34 74) ∧
    (parseGitPayTransactionData s).amount = some (natToDec v) := by
  have hne : s ≠ [] := by
    intro h
    rw [h] at hlen
    simp at hlen
  have hslice_ne : jsSlice2 s 74 138 ≠ [] := by
    have hl : (jsSlice2 s 74 138).length = 64 := by
      unfold jsSlice2
      rw [List.length_drop, List.length_take]
      omega
    intro h
    rw [h] at hl
    simp at hl
  have hamount : jsParseIntHex (jsSlice2 s 74 138) = some ((v : Int)) := by
    unfold jsParseIntHex
    rw [jsParseIntHexExact_of_hex _ hslice_ne hhex, hval, Option.map_some']
    rw [float64RoundInt_coe v hv]
  have hrec : (jsSlice2 s 10 74).drop 24 = jsSlice2 s 34 74 := by
    unfold jsSlice2
    rw [List.drop_drop]
  unfold parseGitPayTransactionData
  rw [if_neg hne, htag]
  simp only [Bool.not_true, Bool.false_eq_true, if_false]
  rw [hsel]
  simp only [Bool.true_and, decide_eq_true hlen, if_true]
  simp [hrec, hamount, jsNumToString_coe v (lt_trans hv (by norm_num))]

set_option maxRecDepth 8000 in
/-- Witness for C1 at the specification's worked example: padded recipient
ending in `abc`, amount 10, identifier block appended. -/
theorem C1_tagged_transfer_decodes_witness :
    (parseGitPayTransactionData c1WitnessData).isGitPay = true ∧
    (parseGitPayTransactionData c1WitnessData).recipient =
      some ('0' :: 'x' :: jsSlice2 c1WitnessData 34 74) ∧
    (parseGitPayTransactionData c1WitnessData).amount = some (natToDec 10) :=
  C1_tagged_transfer_decodes c1WitnessData 10 (by decide) (by decide) (by decide)
    (by decide) (by decide) (by decide)

/-- Claim C5 (confirmed): when either directional asset-transfer query
carries an `error` member in its JSON-RPC response, the whole aggregation
rejects with an error and no transfer list — partial or otherwise — is
returned. -/
theorem C5_upstream_error_fails_whole_request (limit : Nat) (toData fromData : RpcResponse)
    (getTransaction : List Char → Except Unit TxRecord)
    (h : toData.error.isSome ∨ fromData.error.isSome) :
    ∃ msg, fetchTransactionsForAddress limit toData fromData getTransaction =
      Except.error msg := by
  unfold fetchTransactionsForAddress
  cases he : toData.error with
  | some m => exact ⟨_, rfl⟩
  | none =>
    cases hf : fromData.error with
    | some m => exact ⟨_, rfl⟩
    | none =>
      exfalso
      rw [he, hf] at h
      simp at h

/-- Witness for C5: a quota-exceeded error on the to-address query. -/
theorem C5_witness :
    ∃ msg, fetchTransactionsForAddress 100
      { error := some "quota exceeded".toList, transfers := none }
      { error := none, transfers := some [] }
      (fun _ => Except.error ()) = Except.error msg :=
  C5_upstream_error_fails_whole_request 100 _ _ _ (Or.inl rfl)

/-- A transfer whose transaction lookup fails contributes nothing. -/
theorem processOneTransfer_of_error (getTransaction : List Char → Except Unit TxRecord)
    (t : TransferEvent) (h : getTransaction t.hash = Except.error ()) :
    processOneTransfer getTransaction t = none := by
  unfold processOneTransfer
  rw [h]

/-- Claim C9 (confirmed): when `getTransaction` throws for one transfer, the
processing loop's `catch`-and-`continue` skips exactly that transfer: the
result equals the result of processing the list with the failing transfer
removed, so every other transfer is still processed and the aggregation
never fails as a whole. -/
theorem C9_failed_lookup_skips_single_transfer
    (getTransaction : List Char → Except Unit TxRecord)
    (pre post : List TransferEvent) (t : TransferEvent)
    (h : getTransaction t.hash = Except.error ()) :
    processTransfers getTransaction (pre ++ t :: post) =
      processTransfers getTransaction (pre ++ post) := by
  unfold processTransfers
  rw [List.filterMap_append, List.filterMap_append, List.filterMap_cons,
    processOneTransfer_of_error getTransaction t h]

/-- Witness for C9: a three-event list whose middle event's lookup fails
processes like the two-event list without it. -/
theorem C9_witness :
    processTransfers
      (fun h => if h = "0xbad".toList then Except.error () else
        Except.ok { input := some ("0x524754".toList) })
      [{ hash := "0xaaa".toList, fromAddress := "0xf1".toList, toAddress := "0xt1".toList,
         value := some 5, blockNum := "0x1".toList, blockTimestamp := 1000,
         contractAddress := some PYUSD_CONTRACT, decimals := some 6 },
       { hash := "0xbad".toList, fromAddress := "0xf2".toList, toAddress := "0xt2".toList,
         value := some 7, blockNum := "0x2".toList, blockTimestamp := 2000,
         contractAddress := some PYUSD_CONTRACT, decimals := some 6 },
       { hash := "0xccc".toList, fromAddress := "0xf3".toList, toAddress := "0xt3".toList,
         value := some 9, blockNum := "0x3".toList, blockTimestamp := 3000,
         contractAddress := some PYUSD_CONTRACT, decimals := some 6 }] =
    processTransfers
      (fun h => if h = "0xbad".toList then Except.error () else
        Except.ok { input := some ("0x524754".toList) })
      [{ hash := "0xaaa".toList, fromAddress := "0xf1".toList, toAddress := "0xt1".toList,
         value := some 5, blockNum := "0x1".toList, blockTimestamp := 1000,
         contractAddress := some PYUSD_CONTRACT, decimals := some 6 },
       { hash := "0xccc".toList, fromAddress := "0xf3".toList, toAddress := "0xt3".toList,
         value := some 9, blockNum := "0x3".toList, blockTimestamp := 3000,
         contractAddress := some PYUSD_CONTRACT, decimals := some 6 }] :=
  C9_failed_lookup_skips_single_transfer _
    [{ hash := "0xaaa".toList, fromAddress := "0xf1".toList, toAddress := "0xt1".toList,
       value := some 5, blockNum := "0x1".toList, blockTimestamp := 1000,
       contractAddress := some PYUSD_CONTRACT, decimals := some 6 }]
    [{ hash := "0xccc".toList, fromAddress := "0xf3".toList, toAddress := "0xt3".toList,
       value := some 9, blockNum := "0x3".toList, blockTimestamp := 3000,
       contractAddress := some PYUSD_CONTRACT, decimals := some 6 }]
    _ rfl

/-- The hashes of the deduplicated list are pairwise distinct and disjoint
from the already-seen hashes. -/
theorem dedupByHash_nodup_and_disjoint (l : List TransferEvent) :
    ∀ seen : List (List Char),
    ((dedupByHash seen l).map TransferEvent.hash).Nodup ∧
    ∀ h ∈ (dedupByHash seen l).map TransferEvent.hash, h ∉ seen := by
  induction l with
  | nil => intro seen; simp [dedupByHash]
  | cons t rest ih =>
    intro seen
    by_cases hmem : t.hash ∈ seen
    · rw [dedupByHash, if_pos hmem]
      exact ih seen
    · rw [dedupByHash, if_neg hmem]
      obtain ⟨hnd, hdisj⟩ := ih (t.hash :: seen)
      refine ⟨?_, ?_⟩
      · rw [List.map_cons, List.nodup_cons]
        exact ⟨fun hc => (hdisj _ hc) (List.mem_cons_self _ _), hnd⟩
      · intro h hh
        rw [List.map_cons] at hh
        rcases List.mem_cons.mp hh with rfl | hh
        · exact hmem
        · exact fun hs => (hdisj _ hh) (List.mem_cons_of_mem _ hs)

/-- Deduplication only removes events. -/
theorem dedupByHash_subset (l : List TransferEvent) :
    ∀ seen, ∀ t ∈ dedupByHash seen l, t ∈ l := by
  induction l with
  | nil => intro seen t ht; simp [dedupByHash] at ht
  | cons x rest ih =>
    intro seen t ht
    by_cases hmem : x.hash ∈ seen
    · rw [dedupByHash, if_pos hmem] at ht
      exact List.mem_cons_of_mem _ (ih seen t ht)
    · rw [dedupByHash, if_neg hmem] at ht
      rcases List.mem_cons.mp ht with rfl | ht
      · exact List.mem_cons_self _ _
      · exact List.mem_cons_of_mem _ (ih _ t ht)

/-- A produced record stems from a fetched, non-empty, tagged call-data
input, and is exactly the reconstruction `mkGitPayTransaction` builds. -/
theorem processOneTransfer_eq_some (f : List Char → Except Unit TxRecord)
    (t : TransferEvent) (tx : GitPayTransaction)
    (h : processOneTransfer f t = some tx) :
    ∃ input, input ≠ [] ∧ (parseGitPayTransactionData input).isGitPay = true ∧
      tx = mkGitPayTransaction t (parseGitPayTransactionData input) := by
  unfold processOneTransfer at h
  split at h
  · exact absurd h (by simp)
  · split at h
    · exact absurd h (by simp)
    · split at h
      · exact absurd h (by simp)
      · simp only at h
        split at h
        · rename_i input hinput hemp hg
          exact ⟨input, hemp, hg, (Option.some.inj h).symm⟩
        · exact absurd h (by simp)

/-- A produced record keeps the hash of the transfer event it came from. -/
theorem processOneTransfer_hash (f : List Char → Except Unit TxRecord)
    (t : TransferEvent) (tx : GitPayTransaction)
    (h : processOneTransfer f t = some tx) : tx.hash = t.hash := by
  obtain ⟨input, -, -, rfl⟩ := processOneTransfer_eq_some f t tx h
  rfl

/-- The hash list of the processing loop's output embeds into the hash list
of its input events. -/
theorem processTransfers_hashes_sublist (f : List Char → Except Unit TxRecord)
    (l : List TransferEvent) :
    ((processTransfers f l).map GitPayTransaction.hash).Sublist
      (l.map TransferEvent.hash) := by
  induction l with
  | nil => simp [processTransfers]
  | cons t rest ih =>
    unfold processTransfers at ih ⊢
    rw [List.filterMap_cons]
    cases hg : processOneTransfer f t with
    | none => exact ih.cons _
    | some tx =>
      rw [List.map_cons, List.map_cons, processOneTransfer_hash f t tx hg]
      exact ih.cons₂ _

/-- The sort step permutes the list. -/
theorem sortByTimestampDesc_perm (l : List GitPayTransaction) :
    (sortByTimestampDesc l).Perm l :=
  List.mergeSort_perm l _

/-- Sorting a one-element list is the identity. -/
theorem sortByTimestampDesc_singleton (x : GitPayTransaction) :
    sortByTimestampDesc [x] = [x] :=
  List.perm_singleton.mp (List.mergeSort_perm [x] _)

/-- Claim C6 (confirmed): no two elements of a successfully returned transfer
list share a `transactionHash` — in particular, when one event comes from the
to-address query and one from the from-address query with the same hash, at
most one reconstructed transfer for that hash is returned. -/
theorem C6_output_has_no_duplicate_hashes (limit : Nat) (toData fromData : RpcResponse)
    (getTransaction : List Char → Except Unit TxRecord) (l : List GitPayTransaction)
    (h : fetchTransactionsForAddress limit toData fromData getTransaction = Except.ok l) :
    (l.map GitPayTransaction.hash).Nodup := by
  unfold fetchTransactionsForAddress at h
  cases he : toData.error with
  | some m => rw [he] at h; simp at h
  | none =>
    rw [he] at h
    cases hf : fromData.error with
    | some m => rw [hf] at h; simp at h
    | none =>
      rw [hf] at h
      simp only [Except.ok.injEq] at h
      subst h
      apply List.Nodup.sublist ((List.take_sublist 10 _).map GitPayTransaction.hash)
      rw [List.Perm.nodup_iff ((sortByTimestampDesc_perm _).map GitPayTransaction.hash)]
      apply List.Nodup.sublist (processTransfers_hashes_sublist getTransaction _)
      apply List.Nodup.sublist ((List.take_sublist limit _).map TransferEvent.hash)
      apply List.Nodup.sublist ((List.filter_sublist _).map TransferEvent.hash)
      exact (dedupByHash_nodup_and_disjoint _ []).1

set_option maxRecDepth 8000 in
/-- Evaluation of the aggregation on the duplicated event: one record. -/
theorem c6_fetch_eval :
    fetchTransactionsForAddress 100
      { error := none, transfers := some [c6Event1] }
      { error := none, transfers := some [c6Event2] }
      c6Lookup = Except.ok [c6Expected] := by
  have h0 : fetchTransactionsForAddress 100
      { error := none, transfers := some [c6Event1] }
      { error := none, transfers := some [c6Event2] }
      c6Lookup = Except.ok ((sortByTimestampDesc [c6Expected]).take 10) := rfl
  rw [h0, sortByTimestampDesc_singleton]
  rfl

/-- Witness for C6: the same hash in both directional query results yields
exactly one returned transfer, and the hash list is duplicate-free. -/
theorem C6_witness :
    fetchTransactionsForAddress 100
      { error := none, transfers := some [c6Event1] }
      { error := none, transfers := some [c6Event2] }
      c6Lookup = Except.ok [c6Expected] ∧
    ([c6Expected].map GitPayTransaction.hash).Nodup :=
  ⟨c6_fetch_eval, C6_output_has_no_duplicate_hashes 100 _ _ c6Lookup _ c6_fetch_eval⟩

/-- The sort step orders descending by timestamp. -/
theorem sortByTimestampDesc_sorted (l : List GitPayTransaction) :
    (sortByTimestampDesc l).Pairwise (fun a b => b.timestamp ≤ a.timestamp) := by
  unfold sortByTimestampDesc
  have h := @List.sorted_mergeSort GitPayTransaction
    (fun a b => decide (b.timestamp ≤ a.timestamp))
    (fun a b c hab hbc => by
      simp only [decide_eq_true_eq] at *
      omega)
    (fun a b => by
      simp only [Bool.or_eq_true, decide_eq_true_eq]
      exact Int.le_total _ _)
    l
  exact h.imp fun hab => of_decide_eq_true hab

/-- Claim C7 (confirmed): the returned list is sorted descending by
timestamp — whenever `A.timestamp > B.timestamp` and both are returned, `A`
appears before `B`. -/
theorem C7_output_sorted_by_timestamp_desc (limit : Nat) (toData fromData : RpcResponse)
    (getTransaction : List Char → Except Unit TxRecord) (l : List GitPayTransaction)
    (h : fetchTransactionsForAddress limit toData fromData getTransaction = Except.ok l) :
    l.Pairwise (fun a b => b.timestamp ≤ a.timestamp) := by
  unfold fetchTransactionsForAddress at h
  cases he : toData.error with
  | some m => rw [he] at h; simp at h
  | none =>
    rw [he] at h
    cases hf : fromData.error with
    | some m => rw [hf] at h; simp at h
    | none =>
      rw [hf] at h
      simp only [Except.ok.injEq] at h
      subst h
      exact List.Pairwise.sublist (List.take_sublist 10 _) (sortByTimestampDesc_sorted _)

set_option maxRecDepth 8000 in
/-- Evaluation of the aggregation on the lone event `c7Event`. -/
theorem c7_fetch_eval :
    fetchTransactionsForAddress 100
      { error := none, transfers := some [c7Event] }
      { error := none, transfers := none }
      (fun _ => Except.ok { input := some c1WitnessData }) = Except.ok [c7Expected] := by
  have h0 : fetchTransactionsForAddress 100
      { error := none, transfers := some [c7Event] }
      { error := none, transfers := none }
      (fun _ => Except.ok { input := some c1WitnessData }) =
      Except.ok ((sortByTimestampDesc [c7Expected]).take 10) := rfl
  rw [h0, sortByTimestampDesc_singleton]
  rfl

/-- Witness for C7 at a concrete aggregation run. -/
theorem C7_witness :
    fetchTransactionsForAddress 100
      { error := none, transfers := some [c7Event] }
      { error := none, transfers := none }
      (fun _ => Except.ok { input := some c1WitnessData }) = Except.ok [c7Expected] ∧
    ([c7Expected].Pairwise (fun a b => b.timestamp ≤ a.timestamp)) :=
  ⟨c7_fetch_eval, C7_output_sorted_by_timestamp_desc 100 _ _ _ _ c7_fetch_eval⟩

/-- A decimal rendering is never the empty string. -/
theorem natToDec_ne_nil (n : Nat) : natToDec n ≠ [] := by
  unfold natToDec
  rw [natToDecAux]
  split <;> simp

/-- The exponential rendering is never the empty string. -/
theorem jsExpForm_ne_nil (n : Nat) : jsExpForm n ≠ [] := by
  unfold jsExpForm
  cases hsz : stripTrailingZeros (natToDec n) with
  | nil => simp [hsz]
  | cons d rest => cases rest <;> simp [hsz]

/-- A number rendering is never the empty string. -/
theorem jsNatToString_ne_nil (n : Nat) : jsNatToString n ≠ [] := by
  unfold jsNatToString
  split
  · exact natToDec_ne_nil n
  · exact jsExpForm_ne_nil n

/-- `Number.prototype.toString` output (`NaN` included) is never empty. -/
theorem jsNumToString_ne_nil (v : Option Int) : jsNumToString v ≠ [] := by
  unfold jsNumToString
  split
  · decide
  · split
    · simp
    · exact jsNatToString_ne_nil _

/-- The event-derived fallback amount string is never empty. -/
theorem transferValueStr_ne_nil (t : TransferEvent) : transferValueStr t ≠ [] := by
  unfold transferValueStr
  split
  · simp
  · simp
  · exact natToDec_ne_nil _

/-- Every recipient the classifier decodes starts with `0x`. -/
theorem parse_recipient_shape (s : List Char) (r : List Char)
    (h : (parseGitPayTransactionData s).recipient = some r) :
    ∃ rest, r = '0' :: 'x' :: rest := by
  unfold parseGitPayTransactionData at h
  split at h
  · simp at h
  · split at h
    · simp at h
    · simp only at h
      split at h
      · simp only [Option.some.injEq] at h
        exact ⟨_, h.symm⟩
      · simp at h

/-- Every amount the classifier decodes is a number rendering. -/
theorem parse_amount_shape (s : List Char) (a : List Char)
    (h : (parseGitPayTransactionData s).amount = some a) :
    ∃ v, a = jsNumToString v := by
  unfold parseGitPayTransactionData at h
  split at h
  · simp at h
  · split at h
    · simp at h
    · simp only at h
      split at h
      · simp only [Option.some.injEq] at h
        exact ⟨_, h.symm⟩
      · simp at h

/-- The `||`-fallback is non-empty when the decoded option only ever holds
non-empty strings and the fallback is non-empty. -/
theorem jsOrStr_ne_nil (o : Option (List Char)) (d : List Char)
    (ho : ∀ s, o = some s → s ≠ []) (hd : d ≠ []) : jsOrStr o d ≠ [] := by
  cases o with
  | none => exact hd
  | some s =>
    have hs := ho s rfl
    simp only [jsOrStr, if_neg hs]
    exact hs

/-- Claim C10 (confirmed): every returned transfer has non-empty `recipient`
and `amount` fields, where the recipient is the decoded recipient or — when
the call-data decoded no transfer arguments — the raw event's `to` address,
and the amount is the decoded amount or the event's value scaled by
`10 ^ decimals`; the hypothesis is that the indexing API's events carry
non-empty `to` addresses. -/
theorem C10_output_recipient_amount_defined (limit : Nat) (toData fromData : RpcResponse)
    (getTransaction : List Char → Except Unit TxRecord) (l : List GitPayTransaction)
    (h : fetchTransactionsForAddress limit toData fromData getTransaction = Except.ok l)
    (hto : ∀ t ∈ transfersOf toData ++ transfersOf fromData, t.toAddress ≠ [])
    (tx : GitPayTransaction) (htx : tx ∈ l) :
    tx.recipient ≠ [] ∧ tx.amount ≠ [] ∧
    ∃ t input, (parseGitPayTransactionData input).isGitPay = true ∧
      tx = mkGitPayTransaction t (parseGitPayTransactionData input) ∧
      tx.recipient = jsOrStr (parseGitPayTransactionData input).recipient t.toAddress ∧
      tx.amount = jsOrStr (parseGitPayTransactionData input).amount (transferValueStr t) := by
  unfold fetchTransactionsForAddress at h
  cases he : toData.error with
  | some m => rw [he] at h; simp at h
  | none =>
    rw [he] at h
    cases hf : fromData.error with
    | some m => rw [hf] at h; simp at h
    | none =>
      rw [hf] at h
      simp only [Except.ok.injEq] at h
      subst h
      have htx1 := List.take_subset 10 _ htx
      have htx2 := ((sortByTimestampDesc_perm _).mem_iff).mp htx1
      obtain ⟨t, ht, hg⟩ := List.mem_filterMap.mp htx2
      obtain ⟨input, hine, hgp, rfl⟩ := processOneTransfer_eq_some getTransaction t _ hg
      have htmem : t ∈ transfersOf toData ++ transfersOf fromData := by
        have h1 := List.take_subset limit _ ht
        have h2 := List.mem_of_mem_filter h1
        exact dedupByHash_subset _ [] t h2
      have htne := hto t htmem
      refine ⟨?_, ?_, t, input, hgp, rfl, rfl, rfl⟩
      · show jsOrStr (parseGitPayTransactionData input).recipient t.toAddress ≠ []
        apply jsOrStr_ne_nil _ _ _ htne
        intro r hr
        obtain ⟨rest, rfl⟩ := parse_recipient_shape input r hr
        simp
      · show jsOrStr (parseGitPayTransactionData input).amount (transferValueStr t) ≠ []
        apply jsOrStr_ne_nil _ _ _ (transferValueStr_ne_nil t)
        intro a ha
        obtain ⟨v, rfl⟩ := parse_amount_shape input a ha
        exact jsNumToString_ne_nil v

set_option maxRecDepth 8000 in
/-- Evaluation of the aggregation on the tag-only event `c10Event`. -/
theorem c10_fetch_eval :
    fetchTransactionsForAddress 100
      { error := none, transfers := some [c10Event] }
      { error := none, transfers := none }
      (fun _ => Except.ok { input := some c4TruncatedData }) = Except.ok [c10Expected] := by
  have h0 : fetchTransactionsForAddress 100
      { error := none, transfers := some [c10Event] }
      { error := none, transfers := none }
      (fun _ => Except.ok { input := some c4TruncatedData }) =
      Except.ok ((sortByTimestampDesc [c10Expected]).take 10) := rfl
  rw [h0, sortByTimestampDesc_singleton]
  rfl

set_option maxRecDepth 8000 in
/-- Witness for C10: a tag-only transaction (no transfer arguments decode)
still yields a record with non-empty recipient and amount, the recipient
falling back to the event's `to` address. -/
theorem C10_witness :
    c10Expected.recipient ≠ [] ∧ c10Expected.amount ≠ [] ∧
    ∃ t input, (parseGitPayTransactionData input).isGitPay = true ∧
      c10Expected = mkGitPayTransaction t (parseGitPayTransactionData input) ∧
      c10Expected.recipient = jsOrStr (parseGitPayTransactionData input).recipient t.toAddress ∧
      c10Expected.amount = jsOrStr (parseGitPayTransactionData input).amount (transferValueStr t) :=
  C10_output_recipient_amount_defined 100 _ _ _ _ c10_fetch_eval (by decide) c10Expected
    (List.mem_cons_self _ _)

/-- Claim C8 (confirmed): a transfer whose lowercased recipient or sender
equals the subject address, with recipient and sender distinct
(case-insensitively), lands in exactly one of the received/donated
partitions; the counts are the partition lengths and each total sums the
amounts (scaled by `10 ^ 6`) of exactly its own partition. -/
theorem C8_stats_partition (address : List Char) (txs : List GitPayTransaction)
    (tx : GitPayTransaction) (hmem : tx ∈ txs)
    (hsub : jsToLower tx.recipient = jsToLower address ∨
      jsToLower tx.fromAddress = jsToLower address)
    (hne : jsToLower tx.recipient ≠ jsToLower tx.fromAddress) :
    Xor' (tx ∈ receivedTransactions address txs) (tx ∈ donatedTransactions address txs) ∧
    (computeDashboardStats address txs).receivedCount =
      (receivedTransactions address txs).length ∧
    (computeDashboardStats address txs).donatedCount =
      (donatedTransactions address txs).length ∧
    (computeDashboardStats address txs).totalReceived =
      sumAmounts (receivedTransactions address txs) ∧
    (computeDashboardStats address txs).totalDonated =
      sumAmounts (donatedTransactions address txs) := by
  refine ⟨?_, rfl, rfl, rfl, rfl⟩
  rcases hsub with h | h
  · left
    constructor
    · unfold receivedTransactions
      rw [List.mem_filter]
      exact ⟨hmem, decide_eq_true h⟩
    · unfold donatedTransactions
      rw [List.mem_filter]
      rintro ⟨-, hd⟩
      rw [decide_eq_true_eq] at hd
      exact hne (h.trans hd.symm)
  · right
    constructor
    · unfold donatedTransactions
      rw [List.mem_filter]
      exact ⟨hmem, decide_eq_true h⟩
    · unfold receivedTransactions
      rw [List.mem_filter]
      rintro ⟨-, hr⟩
      rw [decide_eq_true_eq] at hr
      exact hne (hr.trans h.symm)

set_option maxRecDepth 8000 in
/-- Witness for C8: the reconstructed transfer `c7Expected`, viewed from its
sender's address, is counted as donated and not as received. -/
theorem C8_witness :
    (Xor' (c7Expected ∈ receivedTransactions "0xbb".toList [c7Expected])
      (c7Expected ∈ donatedTransactions "0xbb".toList [c7Expected])) ∧
    (computeDashboardStats "0xbb".toList [c7Expected]).receivedCount =
      (receivedTransactions "0xbb".toList [c7Expected]).length ∧
    (computeDashboardStats "0xbb".toList [c7Expected]).donatedCount =
      (donatedTransactions "0xbb".toList [c7Expected]).length ∧
    (computeDashboardStats "0xbb".toList [c7Expected]).totalReceived =
      sumAmounts (receivedTransactions "0xbb".toList [c7Expected]) ∧
    (computeDashboardStats "0xbb".toList [c7Expected]).totalDonated =
      sumAmounts (donatedTransactions "0xbb".toList [c7Expected]) :=
  C8_stats_partition "0xbb".toList [c7Expected] c7Expected (List.mem_cons_self _ _)
    (Or.inr (by decide)) (by decide)
